import Mathlib

/-!
Verification development for the gpt-chat-client conversational-session
manager.  The Go sources are embedded shallowly: the transcript is a
`List Message`, the tokenizer and BPE encoder are explicit function
parameters (they are external capabilities in the design), fallible Go
code (slice-bounds panics, nil-interface panics) returns `Option`, and
each Lean definition mirrors one Go function of the repository.
-/

/-- Mirrors `ai.ChatCompletionMessage` restricted to the fields the client
reads and writes (`Role`, `Content`, `Name`). -/
structure Message where
  role : String
  content : String
  name : String
deriving DecidableEq, Repr

/-- Message with `Role: ai.ChatMessageRoleSystem`. -/
def systemMsg (s : String) : Message := ⟨"system", s, ""⟩

/-- Message with `Role: ai.ChatMessageRoleUser`. -/
def userMsg (s : String) : Message := ⟨"user", s, ""⟩

/-- Message with `Role: ai.ChatMessageRoleAssistant`. -/
def assistantMsg (s : String) : Message := ⟨"assistant", s, ""⟩

/-- JSON object form of one message, as `json.Marshal` renders a
`ChatCompletionMessage` whose optional fields are empty (`omitempty`):
role and content always appear, the name only when non-empty.  String
escaping inside the field values is not modelled; the token counter that
consumes this string is abstract anyway. -/
def Message.toJson (m : Message) : String :=
  "\x7b\"role\":\"" ++ m.role ++ "\",\"content\":\"" ++ m.content ++ "\"" ++
    (if m.name = "" then "" else ",\"name\":\"" ++ m.name ++ "\"") ++ "\x7d"

/-- Embeds `History.ToString`: `json.Marshal` of the message slice, a
JSON array of the per-message objects. -/
def historyToString (h : List Message) : String :=
  "[" ++ String.intercalate "," (h.map Message.toJson) ++ "]"

/-- Loop body of `func (c *Client) trimHistoryToMatchTokenLimit(limit int) error`
from `client.go`.  `ct` is the tokenizer capability `CountTokens`.  The Go
loop re-serializes `c.history[1:]` (the transcript without the leading
instruction) after every deletion, deletes the message at index 1 while the
count exceeds the limit, and when only the system message plus one more
message remain it truncates to the system message alone and stops.  The
loop deletes one message per iteration, so `fuel` makes the recursion
structural; the wrapper below supplies `h.length`, which is always enough
(proved by `trimToken_fuel_enough` style arguments in the lemmas: the fuel
case `0` is reached only with the empty list, where the Go code would
panic on `c.history[1:]`). -/
def trimTokenLoop (ct : String → Nat) (limit : Nat) :
    Nat → List Message → List Message
  | 0, h => h
  | fuel + 1, h =>
    if h.length ≤ 1 then h
    else if ct (historyToString (h.drop 1)) ≤ limit then h
    else if h.length = 2 then h.take 1
    else trimTokenLoop ct limit fuel (h.take 1 ++ h.drop 2)

/-- Embeds `func (c *Client) trimHistoryToMatchTokenLimit(limit int) error`
from `client.go` (see `trimTokenLoop`).  A transcript of length one is
returned untouched before any measuring; an empty transcript would panic
in Go, and is returned unchanged here (the theorems about transcripts
require at least the leading message where it matters). -/
def trimHistoryToMatchTokenLimit (ct : String → Nat) (limit : Nat)
    (h : List Message) : List Message :=
  trimTokenLoop ct limit h.length h

/-- Embeds `func (c *Client) trimHistoryToMatchMessageLimit()` (identical
in `client.go` and the older client variant): if more than `memorySize`
non-system messages are present, keep the first message plus the final
segment `history[1+len(history)-memorySize:]`. -/
def trimHistoryToMatchMessageLimit (memorySize : Nat) (h : List Message) :
    List Message :=
  if h.length - 1 ≤ memorySize then h
  else h.take 1 ++ h.drop (1 + h.length - memorySize)

/-- Characters are lowered one by one; embeds `strings.ToLower` for the
ASCII model names the registry holds. -/
def goToLower (s : String) : String := String.mk (s.toList.map Char.toLower)

/-- Embeds `strings.TrimSpace`: drop whitespace from both ends. -/
def goTrimSpace (s : String) : String :=
  String.mk (((s.toList.dropWhile Char.isWhitespace).reverse.dropWhile
    Char.isWhitespace).reverse)

/-- Embeds `getModel(m).ContextLength()` from the model registry
(`gpt-models` source): the name is lowered and trimmed, then matched
exactly against the closed set of model types; `none` is the `nil`
interface Go returns for an unknown name (calling `ContextLength` on it
panics). -/
def getModelContextLength (m : String) : Option Nat :=
  let k := goTrimSpace (goToLower m)
  if k = "gpt-4-turbo" then some 128000
  else if k = "gpt-4-turbo-preview" then some 128000
  else if k = "gpt-4-1106-preview" then some 128000
  else if k = "gpt-4-1106-vision-preview" then some 128000
  else if k = "gpt-4-0125-preview" then some 128000
  else if k = "gpt-4" then some 8192
  else if k = "gpt-4-0613" then some 8192
  else if k = "gpt-4-32k" then some 32768
  else if k = "gpt-4-32k-0613" then some 32768
  else if k = "gpt-3.5-turbo-0125" then some 16385
  else if k = "gpt-3.5-turbo" then some 16385
  else if k = "gpt-3.5-turbo-1106" then some 16385
  else none

/-- Embeds `getModel(m).MaxInstructionLength()`: every registry entry
returns `ContextLength() - instructionTokenBuffer` with the buffer fixed
at 100. -/
def getModelMaxInstructionLength (m : String) : Option Nat :=
  (getModelContextLength m).map (fun cl => cl - 100)

/-- Embeds `func (c *Client) trimHistory()` from `client.go`: the
token-budget trim runs when `memoryTokenSize` is configured, then the
message-count trim when `memoryMessageSize` is configured, and finally
the unconditional safety trim down to the active model's context length.
`none` models the nil-interface panic on an unknown model name. -/
def trimHistory (ct : String → Nat) (memoryTokenSize : Option Nat)
    (memoryMessageSize : Option Nat) (model : String) (h : List Message) :
    Option (List Message) :=
  (getModelContextLength model).map fun cl =>
    let h1 := match memoryTokenSize with
      | some l => trimHistoryToMatchTokenLimit ct l h
      | none => h
    let h2 := match memoryMessageSize with
      | some m => trimHistoryToMatchMessageLimit m h1
      | none => h1
    trimHistoryToMatchTokenLimit ct cl h2

/-- History effect of `func (c *Client) newChatCompletionRequest` in
`client.go`: the question is appended as a user message and
`c.trimHistory()` runs unconditionally; the request's `Messages` field
is the resulting history. -/
def newChatCompletionRequest (ct : String → Nat)
    (memoryTokenSize memoryMessageSize : Option Nat) (model : String)
    (h : List Message) (question : String) : Option (List Message) :=
  trimHistory ct memoryTokenSize memoryMessageSize model (h ++ [userMsg question])

/-- Embeds `func (c *Client) ImportHistory(history History)`: the
imported messages are appended, then `c.trimHistory()` runs. -/
def ImportHistory (ct : String → Nat)
    (memoryTokenSize memoryMessageSize : Option Nat) (model : String)
    (h imported : List Message) : Option (List Message) :=
  trimHistory ct memoryTokenSize memoryMessageSize model (h ++ imported)

theorem trimTokenLoop_le_or_take_one (ct : String → Nat) (limit : Nat) :
    ∀ (fuel : Nat) (h : List Message), h.length ≤ fuel →
      ct (historyToString ((trimTokenLoop ct limit fuel h).drop 1)) ≤ limit ∨
      trimTokenLoop ct limit fuel h = h.take 1 := by
  intro fuel
  induction fuel with
  | zero =>
    intro h hlen
    have hnil : h = [] := List.length_eq_zero.mp (by omega)
    subst hnil
    exact Or.inr rfl
  | succ fuel ih =>
    intro h hlen
    rw [trimTokenLoop]
    split
    · next h1 => exact Or.inr (List.take_of_length_le h1).symm
    · split
      · next h2 => exact Or.inl h2
      · split
        · next h3 => exact Or.inr rfl
        · next h1 h2 h3 =>
          rcases ih (h.take 1 ++ h.drop 2) (by
            simp only [List.length_append, List.length_take, List.length_drop]
            omega) with ihc | ihc
          · exact Or.inl ihc
          · right
            rw [ihc]
            have hl : 3 ≤ h.length := by omega
            match h, hl with
            | a :: b :: c :: t, _ => simp

theorem trimToken_le_or_take_one (ct : String → Nat) (limit : Nat)
    (h : List Message) :
    ct (historyToString ((trimHistoryToMatchTokenLimit ct limit h).drop 1)) ≤ limit ∨
    trimHistoryToMatchTokenLimit ct limit h = h.take 1 :=
  trimTokenLoop_le_or_take_one ct limit h.length h (Nat.le_refl _)

theorem trimTokenLoop_head (ct : String → Nat) (limit : Nat) :
    ∀ (fuel : Nat) (h : List Message),
      (trimTokenLoop ct limit fuel h).head? = h.head? := by
  intro fuel
  induction fuel with
  | zero => intro h; rfl
  | succ fuel ih =>
    intro h
    rw [trimTokenLoop]
    split
    · rfl
    · split
      · rfl
      · split
        · next h1 h2 h3 =>
          match h, h3 with
          | a :: b :: [], _ => simp
        · next h1 h2 h3 =>
          rw [ih]
          have hl : 3 ≤ h.length := by omega
          match h, hl with
          | a :: b :: c :: t, _ => simp

theorem trimToken_head (ct : String → Nat) (limit : Nat) (h : List Message) :
    (trimHistoryToMatchTokenLimit ct limit h).head? = h.head? :=
  trimTokenLoop_head ct limit h.length h

theorem take_one_append_drop_sublist {α : Type} (l : List α) (k : Nat)
    (hk : 1 ≤ k) : (l.take 1 ++ l.drop k).Sublist l := by
  cases l with
  | nil => simp
  | cons a t =>
    obtain ⟨j, rfl⟩ : ∃ j, k = j + 1 := ⟨k - 1, by omega⟩
    simp only [List.take_succ_cons, List.take_zero, List.drop_succ_cons,
      List.cons_append, List.nil_append]
    exact (List.drop_sublist j t).cons₂ a

theorem trimTokenLoop_sublist (ct : String → Nat) (limit : Nat) :
    ∀ (fuel : Nat) (h : List Message),
      (trimTokenLoop ct limit fuel h).Sublist h := by
  intro fuel
  induction fuel with
  | zero => intro h; exact List.Sublist.refl h
  | succ fuel ih =>
    intro h
    rw [trimTokenLoop]
    split
    · exact List.Sublist.refl h
    · split
      · exact List.Sublist.refl h
      · split
        · exact List.take_sublist 1 h
        · exact (ih _).trans (take_one_append_drop_sublist h 2 (by omega))

theorem trimToken_sublist (ct : String → Nat) (limit : Nat) (h : List Message) :
    (trimHistoryToMatchTokenLimit ct limit h).Sublist h :=
  trimTokenLoop_sublist ct limit h.length h

theorem trimMessage_head (memorySize : Nat) (h : List Message) :
    (trimHistoryToMatchMessageLimit memorySize h).head? = h.head? := by
  unfold trimHistoryToMatchMessageLimit
  split
  · rfl
  · rename_i hgt
    have h2 : 2 ≤ h.length := by omega
    match h, h2 with
    | a :: b :: t, _ => simp

theorem trimMessage_sublist (memorySize : Nat) (h : List Message) :
    (trimHistoryToMatchMessageLimit memorySize h).Sublist h := by
  unfold trimHistoryToMatchMessageLimit
  split
  · exact List.Sublist.refl h
  · rename_i hgt
    exact take_one_append_drop_sublist h (1 + h.length - memorySize) (by omega)

theorem trimMessage_characterization (M : Nat) (hM : 1 ≤ M) (h : List Message) :
    ((trimHistoryToMatchMessageLimit M h).length - 1 =
      if h.length - 1 ≤ M then h.length - 1 else M - 1) ∧
    (trimHistoryToMatchMessageLimit M h).take 1 = h.take 1 ∧
    (trimHistoryToMatchMessageLimit M h).drop 1 =
      (h.drop 1).drop
        ((h.length - 1) - ((trimHistoryToMatchMessageLimit M h).length - 1)) := by
  unfold trimHistoryToMatchMessageLimit
  split
  · next hle =>
    exact ⟨rfl, rfl, by rw [Nat.sub_self, List.drop_zero]⟩
  · next hgt =>
    obtain ⟨a, t, rfl⟩ : ∃ a t, h = a :: t := by
      cases h with
      | nil => simp at hgt
      | cons a t => exact ⟨a, t, rfl⟩
    have ht : M + 1 ≤ t.length := by simp only [List.length_cons] at hgt; omega
    have hidx : 1 + (a :: t).length - M = (t.length + 1 - M) + 1 := by
      simp only [List.length_cons]; omega
    rw [hidx]
    simp only [List.length_cons, List.take_succ_cons, List.take_zero,
      List.drop_succ_cons, List.cons_append, List.nil_append,
      if_neg hgt, List.length_drop, List.drop_one, List.drop_drop]
    refine ⟨by omega, trivial, ?_⟩
    congr 1
    omega

theorem trimHistory_head (ct : String → Nat) (mts mms : Option Nat)
    (model : String) (h r : List Message)
    (hr : trimHistory ct mts mms model h = some r) : r.head? = h.head? := by
  unfold trimHistory at hr
  cases hcl : getModelContextLength model with
  | none => rw [hcl] at hr; simp at hr
  | some cl =>
    rw [hcl] at hr
    simp only [Option.map_some'] at hr
    have hb := Option.some.inj hr
    subst hb
    cases mts <;> cases mms <;>
      simp only [trimToken_head, trimMessage_head]

/-- Sample transcript: a system message followed by three non-system
messages (two completed exchanges plus a fresh user turn). -/
def sampleHistory4 : List Message :=
  [systemMsg "s", userMsg "u1", assistantMsg "a1", userMsg "u2"]

/-- C2, counterexample: with message limit `M = 2` and `P = 3` non-system
messages, `trimHistoryToMatchMessageLimit` keeps only one non-system
message (`history[1+4-2:]` is the last single message), so the post-trim
non-system count is 1, not `min M P = 2`, and the kept messages are not
the most recent two. -/
theorem C2_claim_counterexample :
    trimHistoryToMatchMessageLimit 2 sampleHistory4 =
      [systemMsg "s", userMsg "u2"] ∧
    ¬ ((trimHistoryToMatchMessageLimit 2 sampleHistory4).length - 1 =
        min 2 3) := by
  constructor
  · decide
  · decide

/-- C2, amended: a message-count trim with limit `M ≥ 1` leaves the
non-system count unchanged when it is already at most `M`, and otherwise
cuts it to `M - 1` (one fewer than the claimed `min M P`); the message at
position 0 is kept, and the surviving non-system messages are the final
segment — the most recent ones — of the original non-system messages. -/
theorem C2_amended_message_trim (M : Nat) (h : List Message) (hM : 1 ≤ M) :
    ((trimHistoryToMatchMessageLimit M h).length - 1 =
      if h.length - 1 ≤ M then h.length - 1 else M - 1) ∧
    (trimHistoryToMatchMessageLimit M h).take 1 = h.take 1 ∧
    (trimHistoryToMatchMessageLimit M h).drop 1 =
      (h.drop 1).drop
        ((h.length - 1) - ((trimHistoryToMatchMessageLimit M h).length - 1)) :=
  trimMessage_characterization M hM h

/-- C2, witness: the amended statement evaluated on the four-message
transcript with limit 2. -/
theorem C2_amended_message_trim_witness :
    (1 ≤ 2) ∧
    (((trimHistoryToMatchMessageLimit 2 sampleHistory4).length - 1 =
        if sampleHistory4.length - 1 ≤ 2 then sampleHistory4.length - 1 else 2 - 1) ∧
      (trimHistoryToMatchMessageLimit 2 sampleHistory4).take 1 = sampleHistory4.take 1 ∧
      (trimHistoryToMatchMessageLimit 2 sampleHistory4).drop 1 =
        (sampleHistory4.drop 1).drop
          ((sampleHistory4.length - 1) -
            ((trimHistoryToMatchMessageLimit 2 sampleHistory4).length - 1))) :=
  ⟨by decide, C2_amended_message_trim 2 sampleHistory4 (by decide)⟩

/-- C3: after a token-budget trim with limit `L` on a non-empty
transcript, either the serialized non-system messages count at most `L`
tokens, or the trim ended in the edge case and the transcript was cut to
the leading message alone; and in the edge case itself — a system message
plus exactly one other message whose serialization alone exceeds `L` —
that message is deleted in a single step. -/
theorem C3_token_trim_bound (ct : String → Nat) (L : Nat) (h : List Message)
    (_hne : 1 ≤ h.length) :
    (ct (historyToString ((trimHistoryToMatchTokenLimit ct L h).drop 1)) ≤ L ∨
      trimHistoryToMatchTokenLimit ct L h = h.take 1) ∧
    (∀ s m : Message, L < ct (historyToString [m]) →
      trimHistoryToMatchTokenLimit ct L [s, m] = [s]) := by
  refine ⟨trimToken_le_or_take_one ct L h, ?_⟩
  intro s m hm
  have hno : ¬ ct (historyToString [m]) ≤ L := Nat.not_le.mpr hm
  show trimTokenLoop ct L (1 + 1) [s, m] = [s]
  rw [trimTokenLoop]
  rw [if_neg (show ¬ ([s, m] : List Message).length ≤ 1 by simp)]
  rw [if_neg (show ¬ ct (historyToString (([s, m] : List Message).drop 1)) ≤ L by
    simpa using hno)]
  rw [if_pos (show ([s, m] : List Message).length = 2 by simp)]
  rfl

/-- C3, witness: with the byte-length counter and limit 0, the
two-message transcript hits the edge case and is cut to the system
message alone. -/
theorem C3_token_trim_bound_witness :
    (1 ≤ ([systemMsg "a", userMsg "b"] : List Message).length) ∧
    (0 < String.length (historyToString [userMsg "b"])) ∧
    trimHistoryToMatchTokenLimit String.length 0 [systemMsg "a", userMsg "b"] =
      [systemMsg "a"] :=
  ⟨by decide, by decide,
    (C3_token_trim_bound String.length 0 [systemMsg "a", userMsg "b"]
      (by decide)).2 (systemMsg "a") (userMsg "b") (by decide)⟩

/-- C4: for every transcript whose position-0 message is the system
message, the token-budget trim, the message-count trim, and the composite
`trimHistory` (which ends with the final safety trim) all keep exactly
that message at position 0 — no trim path deletes it. -/
theorem C4_system_message_preserved (ct : String → Nat) (L M : Nat)
    (mts mms : Option Nat) (model : String) (h : List Message)
    (sys : Message) (_hrole : sys.role = "system")
    (hhead : h.head? = some sys) :
    (trimHistoryToMatchTokenLimit ct L h).head? = some sys ∧
    (trimHistoryToMatchMessageLimit M h).head? = some sys ∧
    (∀ r, trimHistory ct mts mms model h = some r → r.head? = some sys) := by
  refine ⟨?_, ?_, ?_⟩
  · rw [trimToken_head]; exact hhead
  · rw [trimMessage_head]; exact hhead
  · intro r hr
    rw [trimHistory_head ct mts mms model h r hr]
    exact hhead

/-- C4, witness: the composite trim with both limits configured, on a
system-plus-user transcript under model gpt-4, keeps the system message
at position 0. -/
theorem C4_system_message_preserved_witness :
    (systemMsg "s").role = "system" ∧
    ([systemMsg "s", userMsg "u"] : List Message).head? = some (systemMsg "s") ∧
    trimHistory String.length (some 0) (some 1) "gpt-4"
        [systemMsg "s", userMsg "u"] = some [systemMsg "s"] ∧
    ([systemMsg "s"] : List Message).head? = some (systemMsg "s") :=
  ⟨by decide, by decide, by decide,
    (C4_system_message_preserved String.length 0 1 (some 0) (some 1) "gpt-4"
        [systemMsg "s", userMsg "u"] (systemMsg "s") (by decide)
        (by decide)).2.2 [systemMsg "s"] (by decide)⟩

theorem trimToken_count_le (ct : String → Nat) (limit : Nat)
    (hemp : ct (historyToString []) ≤ limit) (h : List Message) :
    ct (historyToString ((trimHistoryToMatchTokenLimit ct limit h).drop 1)) ≤ limit := by
  rcases trimToken_le_or_take_one ct limit h with hle | heq
  · exact hle
  · rw [heq]
    have hnil : (h.take 1).drop 1 = [] := by
      apply List.drop_eq_nil_of_le
      simp [List.length_take]
    rw [hnil]
    exact hemp

/-- C5: for every configuration of the caller-supplied limits (any
combination of enabled and disabled), every trim of the transcript — the
direct `trimHistory`, the one run while building a request, and the one
run while importing history — ends with the safety trim, so whenever the
model is known (and its context length covers at least the serialization
of an empty message list) the post-trim serialized non-system token count
is at most the model's context length. -/
theorem C5_safety_trim_bound (ct : String → Nat) (mts mms : Option Nat)
    (model : String) (cl : Nat) (h imported : List Message) (q : String)
    (hcl : getModelContextLength model = some cl)
    (hemp : ct (historyToString []) ≤ cl) :
    (∀ r, trimHistory ct mts mms model h = some r →
        ct (historyToString (r.drop 1)) ≤ cl) ∧
    (∀ r, newChatCompletionRequest ct mts mms model h q = some r →
        ct (historyToString (r.drop 1)) ≤ cl) ∧
    (∀ r, ImportHistory ct mts mms model h imported = some r →
        ct (historyToString (r.drop 1)) ≤ cl) := by
  have key : ∀ (g : List Message) (r : List Message),
      trimHistory ct mts mms model g = some r →
      ct (historyToString (r.drop 1)) ≤ cl := by
    intro g r hr
    unfold trimHistory at hr
    rw [hcl] at hr
    simp only [Option.map_some'] at hr
    have hb := Option.some.inj hr
    subst hb
    exact trimToken_count_le ct cl hemp _
  exact ⟨key h, key (h ++ [userMsg q]), key (h ++ imported)⟩

/-- C5, witness: a fresh prompt "hi" against gpt-4 with no caller limits;
the request history is the single user message and its non-system
serialization is within the 8192-token context length. -/
theorem C5_safety_trim_bound_witness :
    getModelContextLength "gpt-4" = some 8192 ∧
    String.length (historyToString []) ≤ 8192 ∧
    newChatCompletionRequest String.length none none "gpt-4" [] "hi" =
      some [userMsg "hi"] ∧
    String.length (historyToString ([userMsg "hi"].drop 1)) ≤ 8192 :=
  ⟨by decide, by decide, by decide,
    (C5_safety_trim_bound String.length none none "gpt-4" 8192 [] [] "hi"
        (by decide) (by decide)).2.1 [userMsg "hi"] (by decide)⟩

/-- Error values of the client.  `errors.New` yields pairwise-distinct
values even for equal message strings, so `moderation`
(`ErrModeration`), `moderationUserInput` (`ErrModerationUserInput`) and
`moderationModelOutput` (`ErrModerationModelOutput`) are separate
constructors; `eof` is `io.EOF`; `api` wraps the transport and
API-level errors the go-openai client returns. -/
inductive GoErr where
  | eof
  | moderation
  | moderationUserInput
  | moderationModelOutput
  | api (msg : String)
deriving DecidableEq, Repr

/-- One value sent on the `chan Stream`: either a response chunk or an
error, mirroring the `Stream` struct. -/
inductive StreamItem where
  | chunk (s : String)
  | err (e : GoErr)
deriving DecidableEq, Repr

/-- One result of `stream.Recv()`: a data message carrying
`Choices[0].Delta.Content`, or a non-nil error (`io.EOF` on a clean
end-of-stream, any other error on a transport failure). -/
inductive RecvResult where
  | data (chunk : String)
  | recvErr (e : GoErr)
deriving DecidableEq, Repr

/-- Embeds `func (c *Client) postStreamResponse(r string)` from
`client.go`: an empty accumulated response commits nothing; otherwise the
assistant message is appended and the token count of the serialized full
history is billed onto the consumption counter. -/
def postStreamResponse (ct : String → Nat) (r : String) (h : List Message)
    (counter : Nat) : List Message × Nat :=
  if r.length = 0 then (h, counter)
  else
    let h2 := h ++ [assistantMsg r]
    (h2, counter + ct (historyToString h2))

/-- Embeds the receive loop of `func (c *Client) PromptStream` in
`client.go`: every received chunk is forwarded on the channel and written
to the accumulating builder; the first non-nil `Recv` error (clean
`io.EOF` included — the loop does not distinguish it) is forwarded, the
loop breaks, and `postStreamResponse` runs on the accumulated text.  The
empty-feed case is unreachable against the real stream, whose `Recv`
always eventually yields an error. -/
def promptStreamLoop (ct : String → Nat) (acc : String)
    (out : List StreamItem) (h : List Message) (counter : Nat) :
    List RecvResult → List StreamItem × (List Message × Nat)
  | [] => (out, (h, counter))
  | RecvResult.data c :: rest =>
    promptStreamLoop ct (acc ++ c) (out ++ [StreamItem.chunk c]) h counter rest
  | RecvResult.recvErr e :: _ =>
    (out ++ [StreamItem.err e], postStreamResponse ct acc h counter)

/-- Producer body of `PromptStream` after a created stream: the loop is
entered with an empty builder and an empty output backlog. -/
def promptStreamRun (ct : String → Nat) (feed : List RecvResult)
    (h : List Message) (counter : Nat) :
    List StreamItem × (List Message × Nat) :=
  promptStreamLoop ct "" [] h counter feed

/-- Concatenation of the received chunks, the value the accumulating
`strings.Builder` holds when the loop exits. -/
def concatChunks : List String → String
  | [] => ""
  | c :: rest => c ++ concatChunks rest

theorem promptStreamLoop_general (ct : String → Nat) (e : GoErr) :
    ∀ (chunks : List String) (acc : String) (out : List StreamItem)
      (h : List Message) (counter : Nat),
      promptStreamLoop ct acc out h counter
          (chunks.map RecvResult.data ++ [RecvResult.recvErr e]) =
        (out ++ chunks.map StreamItem.chunk ++ [StreamItem.err e],
          postStreamResponse ct (acc ++ concatChunks chunks) h counter) := by
  intro chunks
  induction chunks with
  | nil =>
    intro acc out h counter
    simp only [List.map_nil, List.nil_append, List.append_nil, concatChunks,
      String.append_empty]
    rfl
  | cons c rest ih =>
    intro acc out h counter
    simp only [List.map_cons, List.cons_append, promptStreamLoop, List.append_eq]
    rw [ih (acc ++ c) (out ++ [StreamItem.chunk c]) h counter]
    simp only [concatChunks, List.append_assoc, List.cons_append,
      List.nil_append, String.append_assoc]

/-- C1, counterexample: the feed delivers chunk "Hel" and then a
transport error; the claim says no assistant message is appended, but the
loop in `client.go` breaks on any `Recv` error and then runs
`postStreamResponse` on the accumulated text unconditionally, so the
partial text "Hel" is committed to the transcript. -/
theorem C1_claim_counterexample :
    (promptStreamRun String.length
        [RecvResult.data "Hel", RecvResult.recvErr (GoErr.api "connection reset")]
        [] 0).2.1 = [assistantMsg "Hel"] ∧
    (promptStreamRun String.length
        [RecvResult.data "Hel", RecvResult.recvErr (GoErr.api "connection reset")]
        [] 0).2.1 ≠ [] := by
  refine ⟨by decide, by decide⟩

/-- C1, amended: for every chunk feed ended by a terminal `Recv` error —
clean `io.EOF` and transport errors alike — every chunk is forwarded
followed by the terminal error, and an assistant message is appended to
the transcript exactly when the concatenation of the received chunks is
non-empty, with content exactly that concatenation; in particular chunks
"Hel", "lo" followed by a clean end-of-stream commit exactly "Hello". -/
theorem C1_amended_stream_commit (ct : String → Nat) (chunks : List String)
    (e : GoErr) (h : List Message) (counter : Nat) :
    (promptStreamRun ct (chunks.map RecvResult.data ++ [RecvResult.recvErr e])
        h counter).1 = chunks.map StreamItem.chunk ++ [StreamItem.err e] ∧
    (promptStreamRun ct (chunks.map RecvResult.data ++ [RecvResult.recvErr e])
        h counter).2.1 =
      (if (concatChunks chunks).length = 0 then h
        else h ++ [assistantMsg (concatChunks chunks)]) ∧
    (promptStreamRun ct [RecvResult.data "Hel", RecvResult.data "lo",
        RecvResult.recvErr GoErr.eof] h counter).2.1 =
      h ++ [assistantMsg "Hello"] := by
  have hg := promptStreamLoop_general ct e chunks "" [] h counter
  refine ⟨?_, ?_, ?_⟩
  · unfold promptStreamRun
    rw [hg]
    simp
  · unfold promptStreamRun
    rw [hg]
    rw [String.empty_append]
    by_cases hc : (concatChunks chunks).length = 0
    · simp only [postStreamResponse, if_pos hc]
    · simp only [postStreamResponse, if_neg hc]
  · have hfeed : [RecvResult.data "Hel", RecvResult.data "lo",
        RecvResult.recvErr GoErr.eof] =
        (["Hel", "lo"].map RecvResult.data ++ [RecvResult.recvErr GoErr.eof]) := rfl
    unfold promptStreamRun
    rw [hfeed, promptStreamLoop_general ct GoErr.eof ["Hel", "lo"] "" [] h counter]
    rw [show ("" ++ concatChunks ["Hel", "lo"]) = "Hello" by decide]
    show (if ("Hello".length = 0) then (h, counter)
        else (h ++ [assistantMsg "Hello"],
          counter + ct (historyToString (h ++ [assistantMsg "Hello"])))).1 = _
    rw [if_neg (by decide)]

/-- Embeds the loop of `func (b *retryHandler) Do(c CallFunc)`: attempt
index `i` runs next and `remaining` attempts follow it (`maxRetry + 1`
attempts in total, so the loop starts at `i = 0` with
`remaining = maxRetry`).  `op i` is what the wrapped closure returns on
attempt `i`; `ok` is the `err == nil` test.  The result records how many
times the operation was invoked and the value the closure left behind on
the final invocation — the state the caller observes after `Do` returns,
since `Do` itself returns nothing. -/
def retryLoop {α : Type} (ok : α → Bool) (op : Nat → α) :
    Nat → Nat → Nat × α
  | i, 0 => (1, op i)
  | i, remaining + 1 =>
    let a := op i
    if ok a then (1, a)
    else
      let rest := retryLoop ok op (i + 1) remaining
      (rest.1 + 1, rest.2)

/-- Embeds `retryHandler.Do` for a `CallFunc` returning `error`
(`none` is `nil`): invocation count and last observed error. -/
def retryHandlerDo (op : Nat → Option GoErr) (maxRetry : Nat) :
    Nat × Option GoErr :=
  retryLoop (fun r => r.isNone) op 0 maxRetry

theorem retryLoop_all_fail (op : Nat → Option GoErr) :
    ∀ (remaining i : Nat), (∀ k, k ≤ remaining → (op (i + k)).isSome) →
      retryLoop (fun r => r.isNone) op i remaining =
        (remaining + 1, op (i + remaining)) := by
  intro remaining
  induction remaining with
  | zero =>
    intro i _
    rfl
  | succ remaining ih =>
    intro i hfail
    have h0 : (op i).isSome := by simpa using hfail 0 (by omega)
    rw [retryLoop]
    simp only [Option.isNone_iff_eq_none]
    rw [if_neg (by simp [Option.isSome_iff_ne_none] at h0; simpa using h0)]
    rw [ih (i + 1) (fun k hk => by
      have := hfail (k + 1) (by omega)
      simpa [Nat.add_assoc, Nat.add_comm 1 k] using this)]
    have : i + 1 + remaining = i + (remaining + 1) := by omega
    rw [this]

theorem retryLoop_success (op : Nat → Option GoErr) :
    ∀ (remaining i j : Nat), j ≤ remaining → op (i + j) = none →
      (∀ k, k < j → (op (i + k)).isSome) →
      retryLoop (fun r => r.isNone) op i remaining = (j + 1, none) := by
  intro remaining
  induction remaining with
  | zero =>
    intro i j hj hnone _
    obtain rfl : j = 0 := by omega
    show (1, op i) = (1, none)
    rw [show op i = none by simpa using hnone]
  | succ remaining ih =>
    intro i j hj hnone hbefore
    cases j with
    | zero =>
      rw [retryLoop]
      have h0 : op i = none := by simpa using hnone
      rw [if_pos (by simp [h0])]
      rw [h0]
    | succ j =>
      have h0 : (op i).isSome := by simpa using hbefore 0 (by omega)
      rw [retryLoop]
      rw [if_neg (by simp [Option.isSome_iff_ne_none] at h0; simpa using h0)]
      rw [ih (i + 1) j (by omega)
        (by rw [show i + 1 + j = i + (j + 1) by omega]; exact hnone)
        (fun k hk => by
          have := hbefore (k + 1) (by omega)
          simpa [Nat.add_assoc, Nat.add_comm 1 k] using this)]

/-- C6: the retry controller with `maxRetries = N` invokes an
always-failing operation exactly `N + 1` times and leaves the final
attempt's error as the observed one, and invokes an operation that first
succeeds on attempt `K ≤ N + 1` exactly `K` times leaving no error. -/
theorem C6_retry_counts (op : Nat → Option GoErr) (N : Nat) :
    ((∀ i, i ≤ N → (op i).isSome) →
      retryHandlerDo op N = (N + 1, op N)) ∧
    (∀ K, 1 ≤ K → K ≤ N + 1 → op (K - 1) = none →
      (∀ i, i < K - 1 → (op i).isSome) →
      retryHandlerDo op N = (K, none)) := by
  constructor
  · intro hfail
    unfold retryHandlerDo
    rw [retryLoop_all_fail op N 0 (fun k hk => by simpa using hfail k hk)]
    simp
  · intro K hK1 hKN hnone hbefore
    unfold retryHandlerDo
    rw [retryLoop_success op N 0 (K - 1) (by omega) (by simpa using hnone)
      (fun k hk => by simpa using hbefore k hk)]
    congr 1
    omega

/-- C6, witness: with `N = 5`, an operation failing on attempts 0 and 1
and succeeding on attempt 2 (attempt number `K = 3`) is invoked 3 times
with no observed error; separately, an operation that always fails is
invoked `N + 1 = 2` times for `N = 1` and its last error is observed. -/
theorem C6_retry_counts_witness :
    retryHandlerDo (fun i => if i = 2 then none else some GoErr.eof) 5 =
      (3, none) ∧
    retryHandlerDo (fun _ => some (GoErr.api "boom")) 1 =
      (2, some (GoErr.api "boom")) :=
  ⟨(C6_retry_counts (fun i => if i = 2 then none else some GoErr.eof) 5).2
      3 (by decide) (by decide) (by decide) (fun i hi => by
        interval_cases i <;> decide),
    by
      have := (C6_retry_counts (fun _ => some (GoErr.api "boom")) 1).1
        (fun i _ => by decide)
      simpa using this⟩

/-- Embeds `strings.Contains(s, sub)` for a non-empty pattern: the split
on the pattern yields more than one piece exactly when the pattern
occurs. -/
def goContains (s sub : String) : Bool := (s.splitOn sub).length != 1

/-- Per-model overhead constants selected by the `switch` at the top of
`billConsumedTokens` (older client variant / gpt source): the named 0613
and 0314 models use 3 tokens per message and 1 per name, the 0301 model
uses 4 and -1, other names containing "gpt-3.5-turbo" or "gpt-4" fall
back to 3 and 1, and any other model name skips billing (`none`). -/
def billParams (model : String) : Option (Int × Int) :=
  if model = "gpt-3.5-turbo-0613" ∨ model = "gpt-3.5-turbo-16k-0613" ∨
      model = "gpt-4-0314" ∨ model = "gpt-4-32k-0314" ∨
      model = "gpt-4-0613" ∨ model = "gpt-4-32k-0613" then some (3, 1)
  else if model = "gpt-3.5-turbo-0301" then some (4, -1)
  else if goContains model "gpt-3.5-turbo" then some (3, 1)
  else if goContains model "gpt-4" then some (3, 1)
  else none

/-- Cost of one message inside the loop of `billConsumedTokens`:
`tokensPerMessage`, plus encoded lengths of content, role and name, plus
`tokensPerName` when the name is non-empty.  `encode` is the tokenizer
capability `Encode(text, nil, nil)`. -/
def messageTokens (encode : String → List Nat) (tpm tpn : Int)
    (m : Message) : Int :=
  tpm + (encode m.content).length + (encode m.role).length +
    (encode m.name).length + (if m.name = "" then 0 else tpn)

/-- Embeds `func (c *Client) billConsumedTokens()`: when the model family
is recognized, the cost of every message plus the fixed 3-token reply
priming is added to the consumption counter; an unrecognized model skips
billing (warning only). -/
def billConsumedTokens (encode : String → List Nat) (model : String)
    (h : List Message) (counter : Int) : Int :=
  match billParams model with
  | none => counter
  | some (tpm, tpn) =>
    counter + (h.foldl (fun acc m => acc + messageTokens encode tpm tpn m) 0 + 3)

/-- C7: for a transcript of one system message `X` and one user message
`Y`, billing under a model with the gpt35-style overhead constants
(3 per message, 1 per name) adds exactly
`3 + ct X + ct "system" + 3 + ct Y + ct "user" + 3` tokens to the
counter, where `ct` is the encoded length; the encoder maps the empty
name to the empty token list, so the name terms vanish. -/
theorem C7_billing_formula (encode : String → List Nat) (model : String)
    (X Y : String) (counter : Int)
    (hfam : billParams model = some (3, 1))
    (hemp : (encode "").length = 0) :
    billConsumedTokens encode model [systemMsg X, userMsg Y] counter =
      counter + (3 + ((encode X).length : Int) + (encode "system").length +
        (3 + ((encode Y).length : Int) + (encode "user").length) + 3) := by
  unfold billConsumedTokens
  rw [hfam]
  simp only [List.foldl_cons, List.foldl_nil, messageTokens, systemMsg, userMsg]
  simp only [if_pos rfl, hemp]
  push_cast
  ring

/-- C7, witness: the formula evaluated with the character-count encoder
on model gpt-3.5-turbo-0613, system content "ab", user content "c". -/
theorem C7_billing_formula_witness :
    billParams "gpt-3.5-turbo-0613" = some (3, 1) ∧
    ((fun s => List.range s.length) "").length = 0 ∧
    billConsumedTokens (fun s => List.range s.length) "gpt-3.5-turbo-0613"
        [systemMsg "ab", userMsg "c"] 0 =
      0 + (3 + (((fun s => List.range s.length) "ab").length : Int) +
        ((fun s => List.range s.length) "system").length +
        (3 + (((fun s => List.range s.length) "c").length : Int) +
          ((fun s => List.range s.length) "user").length) + 3) :=
  ⟨by decide, by decide,
    C7_billing_formula (fun s => List.range s.length) "gpt-3.5-turbo-0613"
      "ab" "c" 0 (by decide) (by decide)⟩

/-- Result of the moderation capability (`c.client.Moderations`): the
call may fail with an API error, or report the input flagged or clean. -/
inductive ModOutcome where
  | flagged
  | clean
  | capErr (msg : String)
deriving DecidableEq, Repr

/-- Embeds `func (c *Client) moderateInput(ctx, input)`: a capability
error is returned as-is, a flagged result becomes `ErrModeration`, and a
clean result is `nil`. -/
def moderateInput : ModOutcome → Option GoErr
  | ModOutcome.capErr s => some (GoErr.api s)
  | ModOutcome.flagged => some GoErr.moderation
  | ModOutcome.clean => none

/-- The `err == nil` test on the completion closure's result. -/
def completionOk : Except GoErr String → Bool
  | Except.ok _ => true
  | Except.error _ => false

/-- Retry-wrapped completion call inside `Prompt`: the closure sets
`response, err` on every attempt, so after `Do` returns the caller
observes the final attempt's result; the first component counts the
completion invocations. -/
def promptRetry (op : Nat → Except GoErr String) (maxRetry : Nat) :
    Nat × Except GoErr String :=
  retryLoop completionOk op 0 maxRetry

/-- Tail of `func (c *Client) Prompt` after the input-moderation gate:
run the retry-wrapped completion, return its error if the final attempt
failed, otherwise apply the optional output-moderation gate.  The second
component counts completion-endpoint invocations. -/
def promptAfterInputGate (moderateResponse : Bool)
    (modOf : String → ModOutcome) (op : Nat → Except GoErr String)
    (maxRetry : Nat) : (String × Option GoErr) × Nat :=
  let run := promptRetry op maxRetry
  match run.2 with
  | Except.error e => (("", some e), run.1)
  | Except.ok response =>
    if moderateResponse then
      match moderateInput (modOf response) with
      | some e =>
        if e = GoErr.moderation then (("", some GoErr.moderationModelOutput), run.1)
        else (("", some e), run.1)
      | none => ((response, none), run.1)
    else ((response, none), run.1)

/-- Embeds `func (c *Client) Prompt(ctx, prompt)` from `client.go`:
when input moderation is enabled, `moderateInput` runs first and
`ErrModeration` is mapped to `ErrModerationUserInput` while any other
error is returned verbatim, in both cases before the retry-wrapped
completion call; `modOf` gives the moderation outcome for a text and `op`
the completion attempt results. -/
def Prompt (moderatePromptMessage moderateResponse : Bool)
    (modOf : String → ModOutcome) (op : Nat → Except GoErr String)
    (maxRetry : Nat) (prompt : String) : (String × Option GoErr) × Nat :=
  if moderatePromptMessage then
    match moderateInput (modOf prompt) with
    | some e =>
      if e = GoErr.moderation then (("", some GoErr.moderationUserInput), 0)
      else (("", some e), 0)
    | none => promptAfterInputGate moderateResponse modOf op maxRetry
  else promptAfterInputGate moderateResponse modOf op maxRetry

/-- C8: with input moderation enabled, a flagged moderation outcome makes
`Prompt` return `ErrModerationUserInput` and a capability-level
moderation error makes it return that error itself, in both cases with
zero completion-endpoint invocations (nothing reaches the retry
controller); and the two outcomes are distinct error values. -/
theorem C8_moderation_gate (mr : Bool) (modOf : String → ModOutcome)
    (op : Nat → Except GoErr String) (N : Nat) (q : String) :
    (modOf q = ModOutcome.flagged →
      Prompt true mr modOf op N q = (("", some GoErr.moderationUserInput), 0)) ∧
    (∀ s, modOf q = ModOutcome.capErr s →
      Prompt true mr modOf op N q = (("", some (GoErr.api s)), 0)) ∧
    (∀ s, GoErr.api s ≠ GoErr.moderationUserInput) := by
  refine ⟨?_, ?_, ?_⟩
  · intro hflag
    unfold Prompt
    rw [if_pos rfl, hflag]
    rfl
  · intro s herr
    unfold Prompt
    rw [if_pos rfl, herr]
    show (if GoErr.api s = GoErr.moderation then _ else _) = _
    rw [if_neg (by simp)]
  · intro s
    simp

/-- C8, witness: a flagged outcome and a capability error, each with a
completion operation that would always succeed, never reach it. -/
theorem C8_moderation_gate_witness :
    Prompt true false (fun _ => ModOutcome.flagged)
        (fun _ => Except.ok "unused") 5 "hi" =
      (("", some GoErr.moderationUserInput), 0) ∧
    Prompt true false (fun _ => ModOutcome.capErr "rate limited")
        (fun _ => Except.ok "unused") 5 "hi" =
      (("", some (GoErr.api "rate limited")), 0) ∧
    GoErr.api "rate limited" ≠ GoErr.moderationUserInput :=
  ⟨(C8_moderation_gate false (fun _ => ModOutcome.flagged)
      (fun _ => Except.ok "unused") 5 "hi").1 rfl,
    (C8_moderation_gate false (fun _ => ModOutcome.capErr "rate limited")
      (fun _ => Except.ok "unused") 5 "hi").2.1 "rate limited" rfl,
    (C8_moderation_gate false (fun _ => ModOutcome.capErr "rate limited")
      (fun _ => Except.ok "unused") 5 "hi").2.2 "rate limited"⟩

/-- Embeds `func (c *Client) Instruct(instruction string) error` from
`client.go`: if the instruction's token count exceeds the model's
maximum instruction length the call fails and the history is untouched;
otherwise the system message is inserted on an empty history and
replaces position 0 in place on a non-empty one.  The outer `none` is
the nil-interface panic on an unknown model name. -/
def Instruct (ct : String → Nat) (model : String) (instruction : String)
    (h : List Message) : Option (Except String (List Message)) :=
  (getModelMaxInstructionLength model).map fun maxLen =>
    if ct instruction > maxLen then
      Except.error ("max length of instruction is " ++ toString maxLen)
    else if h.length = 0 then
      Except.ok (h ++ [systemMsg instruction])
    else
      Except.ok (h.set 0 (systemMsg instruction))

/-- C9: on a non-empty transcript with a fitting instruction, `Instruct`
replaces exactly the message at position 0 with the new system message,
leaving every message at positions 1 and above, and the length,
unchanged; and no other operation modifies an already-appended message —
appending a user message or committing a stream response leaves the
existing prefix intact, and every trim only deletes messages (its result
is a sublist of the input). -/
theorem C9_instruct_frame (ct : String → Nat) (model : String)
    (instruction : String) (h : List Message) (maxLen : Nat)
    (hmodel : getModelMaxInstructionLength model = some maxLen)
    (hfits : ct instruction ≤ maxLen) (hne : h ≠ []) :
    Instruct ct model instruction h =
      some (Except.ok (h.set 0 (systemMsg instruction))) ∧
    (h.set 0 (systemMsg instruction)).length = h.length ∧
    (h.set 0 (systemMsg instruction)).drop 1 = h.drop 1 ∧
    (h.set 0 (systemMsg instruction)).head? = some (systemMsg instruction) ∧
    (∀ q, (h ++ [userMsg q]).take h.length = h) ∧
    (∀ r counter, ((postStreamResponse ct r h counter).1).take h.length = h) ∧
    (∀ L, (trimHistoryToMatchTokenLimit ct L h).Sublist h) ∧
    (∀ M, (trimHistoryToMatchMessageLimit M h).Sublist h) := by
  obtain ⟨a, t, rfl⟩ : ∃ a t, h = a :: t := by
    cases h with
    | nil => exact absurd rfl hne
    | cons a t => exact ⟨a, t, rfl⟩
  refine ⟨?_, by simp, by simp, by simp, ?_, ?_, ?_, ?_⟩
  · unfold Instruct
    rw [hmodel]
    simp only [Option.map_some']
    rw [if_neg (by omega), if_neg (by simp)]
  · intro q
    exact List.take_left (a :: t) [userMsg q]
  · intro r counter
    unfold postStreamResponse
    split
    · exact List.take_length (a :: t)
    · exact List.take_left (a :: t) [assistantMsg r]
  · intro L
    exact trimToken_sublist ct L (a :: t)
  · intro M
    exact trimMessage_sublist M (a :: t)

/-- C9, witness: replacing the instruction on a two-message transcript
under gpt-4. -/
theorem C9_instruct_frame_witness :
    getModelMaxInstructionLength "gpt-4" = some 8092 ∧
    String.length "be nice" ≤ 8092 ∧
    ([systemMsg "old", userMsg "hi"] : List Message) ≠ [] ∧
    Instruct String.length "gpt-4" "be nice" [systemMsg "old", userMsg "hi"] =
      some (Except.ok [systemMsg "be nice", userMsg "hi"]) :=
  ⟨by decide, by decide, by decide,
    by
      have := (C9_instruct_frame String.length "gpt-4" "be nice"
        [systemMsg "old", userMsg "hi"] 8092 (by decide) (by decide)
        (by decide)).1
      simpa using this⟩

/-- Embeds `func (c *Client) ExportHistory(includeSystemMsg bool)` from
the older client variant: with `includeSystemMsg = false` it returns
`c.history[1:]`, which on an empty history is an out-of-bounds slice
operation (a Go panic, modelled as `none`). -/
def ExportHistory (includeSystemMsg : Bool) (h : List Message) :
    Option (List Message) :=
  if includeSystemMsg then some h
  else if h.length = 0 then none
  else some (h.drop 1)

/-- C10: `ExportHistory false` panics on an empty transcript (the error
branch of the embedding), and on any non-empty transcript returns exactly
the messages at positions 1 and above — dropping the message at position
0 even when it is an ordinary user message rather than a system
message. -/
theorem C10_export_history :
    ExportHistory false ([] : List Message) = none ∧
    (∀ h : List Message, h ≠ [] → ExportHistory false h = some (h.drop 1)) ∧
    ExportHistory false [userMsg "u", assistantMsg "a"] =
      some [assistantMsg "a"] ∧
    (userMsg "u").role = "user" := by
  refine ⟨rfl, ?_, by decide, rfl⟩
  intro h hne
  unfold ExportHistory
  rw [if_neg (by simp), if_neg (by simpa using hne)]

/-- C10, witness: exporting a singleton user-message transcript without
the system slot drops that user message. -/
theorem C10_export_history_witness :
    ([userMsg "x"] : List Message) ≠ [] ∧
    ExportHistory false [userMsg "x"] = some [] :=
  ⟨by decide, by
    have := C10_export_history.2.1 [userMsg "x"] (by decide)
    simpa using this⟩
